import Mathlib

/-!
Verification development for the kraftkit control-plane core: the compose
reconciliation pass (`kraft compose up`), the machine event watch loop
(`kraft events`), and the cpio SVR4 checksum digest.

Each Go function of the repository is shallowly embedded as an executable
Lean definition.  External collaborators (catalog, build toolchain, machine
and network drivers, persistence store) are passed in explicitly as an
environment of oracle functions, and every externally visible call the code
performs is recorded in an action trace, so that ordering and counting
properties of one pass can be stated and proved.
-/

namespace Kraftkit

/-! ## Machine lifecycle state (machineapi.MachineState) -/

/-- Lifecycle states of a machine instance, from `machineapi.MachineState`:
unknown, starting (pending/created), running, exited, failed. -/
inductive MachineState where
  | unknown
  | starting
  | running
  | exited
  | failed
deriving DecidableEq, Repr

/-- A machine instance as listed by the machine controller: its unique id
(`UID`), human name (`ObjectMeta.Name`), and current lifecycle state
(`Status.State`). -/
structure Machine where
  uid : String
  name : String
  state : MachineState
deriving DecidableEq, Repr

end Kraftkit

namespace Cpio

/-! ## cpio/hash.go — SVR4 checksum digest

Bytes are modelled as natural numbers; the Go `uint32` accumulator wraps,
so every addition is taken modulo `2 ^ 32`, and `b & 0xFF` is `b % 256`. -/

/-- The `digest` struct of cpio/hash.go: a single `uint32` running sum. -/
structure Digest where
  sum : Nat
deriving DecidableEq, Repr

/-- `NewHash` returns a fresh digest with a zero sum. -/
def NewHash : Digest := ⟨0⟩

/-- `digest.Write`: adds every byte of `p` (masked with `0xFF`) into the
wrapping `uint32` sum, and returns the new digest together with `len(p)`
and a `nil` error (modelled as `none`). -/
def digestWrite (d : Digest) (p : List Nat) : Digest × Nat × Option String :=
  (⟨p.foldl (fun a b => (a + b % 256) % 2 ^ 32) d.sum⟩, p.length, none)

/-- `digest.Sum32` returns the running sum. -/
def Sum32 (d : Digest) : Nat := d.sum

/-- `digest.Reset` zeroes the running sum. -/
def digestReset (_ : Digest) : Digest := ⟨0⟩

/-- Writing a sequence of byte slices in order, keeping only the digest. -/
def writeAll (d : Digest) (ps : List (List Nat)) : Digest :=
  ps.foldl (fun d p => (digestWrite d p).1) d

end Cpio

namespace Kraftkit.Events

/-! ## internal/cli/kraft/events/events.go — the watch control loop

The machine store listing returned by `controller.List` on each tick is an
input (one listing per tick).  The shared `observations` waitgroup registry
(`kraftkit.sh/internal/waitgroup`, not part of this source tree) is
modelled from its specification: an identity-keyed set with idempotent
`Add`, idempotent `Done` removal, and an `Items` snapshot. -/

/-- Modelled from the spec: `waitgroup.WaitGroup.Add` of the internal
waitgroup package (the package itself is outside this source tree).  Adding
an identity already present in the registry is a no-op; otherwise the
machine is appended. -/
def wgAdd (reg : List Machine) (m : Machine) : List Machine :=
  if reg.any (fun x => x.uid = m.uid) then reg else reg ++ [m]

/-- Modelled from the spec: `waitgroup.WaitGroup.Done` removes the identity
from the registry; removing an absent identity is a no-op. -/
def wgDone (reg : List Machine) (m : Machine) : List Machine :=
  reg.filter (fun x => ¬ x.uid = m.uid)

/-- The filter of events.go line 178: with no positional argument every
machine matches, otherwise the argument must equal the machine's UID or its
name. -/
def matchesFilter (args : List String) (m : Machine) : Bool :=
  args.isEmpty || (args.headD "" = m.uid || args.headD "" = m.name)

/-- The `switch machine.Status.State` of events.go lines 179-187: a machine
in state failed, exited or unknown is skipped (`continue`) exactly when the
`--quit-together` flag is set; all other states fall through to `Add`. -/
def skipAdd (quitTogether : Bool) (s : MachineState) : Bool :=
  match s with
  | .failed | .exited | .unknown => quitTogether
  | _ => false

/-- The add phase of one `seek` tick (events.go lines 177-191): every listed
machine matching the filter and not skipped is added to the registry. -/
def tickAdd (quitTogether : Bool) (args : List String)
    (reg : List Machine) (machines : List Machine) : List Machine :=
  machines.foldl
    (fun r m =>
      if matchesFilter args m then
        if skipAdd quitTogether m.state then r else wgAdd r m
      else r)
    reg

/-- State of the `seek` control loop across ticks.  `spawned` records, with
multiplicity and in order, the UID passed to each observer goroutine
started at line 201; `cancelled` records whether `cancel()` has been
called; `sleeps` counts executions of the `time.Sleep` at line 233. -/
structure LoopState where
  reg : List Machine
  spawned : List String
  cancelled : Bool
  sleeps : Nat
deriving DecidableEq, Repr

/-- The initial loop state of one `Run` call: an empty registry, nothing
spawned, not cancelled, no sleeps. -/
def initLoop : LoopState := ⟨[], [], false, 0⟩

/-- The `seek` loop of events.go lines 164-234, driven by one machine-store
listing per tick.  Each tick: stop if cancelled (`ctx.Done`); run the add
phase; if the registry is empty and `--quit-together` is set, call
`cancel()` and `break seek` before sleeping; otherwise spawn one observer
goroutine for every machine currently in the registry (`observations.Items`,
line 198 — not only the newly added ones), then sleep and continue.  The
listing sequence models the ticks executed before the caller's trace ends;
observer-side removals between ticks are not interleaved here. -/
def runTicks (quitTogether : Bool) (args : List String) :
    List (List Machine) → LoopState → LoopState
  | [], s => s
  | ms :: rest, s =>
    if s.cancelled then s
    else
      let reg' := tickAdd quitTogether args s.reg ms
      if reg'.isEmpty ∧ quitTogether then
        { s with reg := reg', cancelled := true }
      else
        runTicks quitTogether args rest
          { reg := reg'
            spawned := s.spawned ++ reg'.map (·.uid)
            cancelled := s.cancelled
            sleeps := s.sleeps + 1 }

/-- A message delivered to one observer goroutine's `select` (events.go
lines 208-229): a machine event from `events`, an error from `errs` (with
`benign` recording whether it is `qmp.ErrAcceptedNonEvent`), or context
cancellation. -/
inductive ObsMsg where
  | ev (m : Machine)
  | err (benign : Bool)
  | cancelled
deriving DecidableEq, Repr

/-- One observer goroutine of events.go lines 201-230, processing the
sequence of messages its `select` receives.  Returns the resulting
registry, the number of error-level log lines emitted, and whether the
goroutine returned (`true`) or is still blocked in its loop when the
message sequence is exhausted (`false`).  On a terminal event it removes
the *received* machine and returns; on a stream error it logs (unless the
error is the benign accepted-non-event) and removes the captured machine
but has no `return`, so the loop continues; on cancellation it removes the
captured machine and returns. -/
def observer (m : Machine) : List ObsMsg → List Machine → Nat →
    List Machine × Nat × Bool
  | [], reg, logs => (reg, logs, false)
  | .ev e :: rest, reg, logs =>
    match e.state with
    | .exited | .failed => (wgDone reg e, logs, true)
    | _ => observer m rest reg logs
  | .err benign :: rest, reg, logs =>
    observer m rest (wgDone reg m) (if benign then logs else logs + 1)
  | .cancelled :: _, reg, logs => (wgDone reg m, logs, true)

end Kraftkit.Events

namespace Kraftkit.Up

/-! ## internal/cli/kraft/compose/up/up.go — one reconciliation pass

`UpOptions.Run` is embedded from the point where the project has been
loaded, validated and assigned IPs (those steps are delegated to external
collaborators and abort the call on error before anything modelled here
runs).  Every external collaborator the pass drives — the compose state
store, the network and machine controllers, the package catalog, the build
and packaging toolchains — is an oracle field of `Env`, and every call is
recorded in an `Action` trace.  Go maps (`project.Networks`) are modelled
as association lists. -/

/-- One entry of a network's IPAM configuration (`types.IPAMPool`): only
the subnet is consulted by this code. -/
structure IpamConfig where
  subnet : String
deriving DecidableEq, Repr

/-- A declared compose network (`types.NetworkConfig`): its name, driver
(empty means the "bridge" default) and IPAM configuration; a `nil` or empty
configuration list means the network has no explicit subnet. -/
structure NetworkSpec where
  name : String
  driver : String
  ipamConfig : List IpamConfig
deriving DecidableEq, Repr

/-- A declared compose service (`types.ServiceConfig`): name, image
reference (empty means build from source), optional build context
(`Build == nil` modelled as `none`), the `<platform>/<architecture>`
string, and its network attachments as pairs of attachment name and
requested IPv4 address. -/
structure ServiceConfig where
  name : String
  image : String
  build : Option String
  platform : String
  networks : List (String × String)
deriving DecidableEq, Repr

/-- A compose project (`compose.Project`): name, declared services in
order, declared networks keyed by name, compose file paths and working
directory. -/
structure Project where
  name : String
  services : List ServiceConfig
  networks : List (String × NetworkSpec)
  composeFiles : List String
  workingDir : String
deriving DecidableEq, Repr

/-- Reported state of a network (`networkapi.NetworkState`): only `up`
matters to this code. -/
inductive NetworkState where
  | up
  | down
  | unknown
deriving DecidableEq, Repr

/-- A network as returned by the network controller. -/
structure NetworkItem where
  name : String
  state : NetworkState
deriving DecidableEq, Repr

/-- The filter of one catalog query: name, platform, architecture and
version, as passed via `packmanager.With*` options. -/
structure CatalogQuery where
  name : String
  platform : String
  architecture : String
  version : String
deriving DecidableEq, Repr

/-- The owned-resource sets of the persisted `composeapi.ComposeStatus`:
machine identities and network identities (object names). -/
structure ComposeStatus where
  machines : List String
  networks : List String
deriving DecidableEq, Repr

/-- One externally visible call performed during a reconciliation pass. -/
inductive Action where
  | createNetwork (name driver subnet : String)
  | removeMachine (name : String)
  | queryLocal (q : CatalogQuery)
  | queryRemote (q : CatalogQuery)
  | pull (platform architecture image : String)
  | build (service bctx platform architecture : String)
  | package (image format platform architecture bctx : String)
  | launch (name platform architecture : String) (networks : List String) (target : String)
  | persist (composefile workdir : String) (st : ComposeStatus)
  | logRunFailed (service : String)
deriving DecidableEq, Repr

/-- The environment of external collaborators: results of the two `List`
calls, the pre-existing compose record (`composeController.Get`, `none`
when absent), and the outcome oracles for every other call. -/
structure Env where
  embedded : Option ComposeStatus
  networksList : Except String (List NetworkItem)
  machinesList : Except String (List Machine)
  netCreate : String → String → String → Except String Unit
  netGet : String → Except String NetworkItem
  machineRemove : String → Except String Unit
  machineGet : String → Except String Machine
  localCatalog : CatalogQuery → Except String Nat
  remoteCatalog : CatalogQuery → Except String Nat
  pull : String → String → String → Except String Unit
  build : String → String → String → Except String Unit
  package : String → String → String → String → String → Except String Unit
  runMachine : String → String → String → List String → String → Except String Unit
  persist : String → String → ComposeStatus → Except String Unit

/-- Splits a character list at the first occurrence of `c`: `none` when
`c` does not occur, otherwise the characters before and after it. -/
def breakAtChar (c : Char) : List Char -> Option (List Char × List Char)
  | [] => none
  | x :: xs =>
    if x = c then some ([], xs)
    else
      match breakAtChar c xs with
      | none => none
      | some (pre, post) => some (x :: pre, post)

/-- Go's `strings.SplitN(s, sep, 2)` for the one-character separators this
code uses ("/" and ":"): the whole string when the separator does not
occur, otherwise the parts before and after its first occurrence. -/
def splitN2 (s : String) (sep : Char) : List String :=
  match breakAtChar sep s.toList with
  | none => [s]
  | some (pre, post) => [String.mk pre, String.mk post]

/-- `platArchFromService`: the service platform must be of the form
`<platform>/<arch>`. -/
def platArchFromService (service : ServiceConfig) : Except String (String × String) :=
  match splitN2 service.platform '/' with
  | [p, a] => .ok (p, a)
  | _ => .error ("invalid platform: " ++ service.platform ++ " for service " ++ service.name)

/-- The image name part of `strings.SplitN(service.Image, ":", 2)`. -/
def imageName (image : String) : String := (splitN2 image ':').headD ""

/-- The image tag of `strings.SplitN(service.Image, ":", 2)`, defaulting to
"latest" when the reference carries no tag. -/
def imageVersion (image : String) : String := (splitN2 image ':').getD 1 "latest"

/-- The normalized reference `imageName + ":" + imageVersion` the code
writes back into `service.Image`. -/
def normalizedImage (image : String) : String :=
  imageName image ++ ":" ++ imageVersion image

/-- The catalog filter built in `ensureServiceIsPackaged`: image name,
platform, architecture and version. -/
def serviceCatalogQuery (service : ServiceConfig) (plat arch : String) : CatalogQuery :=
  ⟨imageName service.image, plat, arch, imageVersion service.image⟩

/-- `buildService`: fails when the service has no build context, otherwise
invokes the build collaborator on the context for the target
platform/architecture. -/
def buildService (env : Env) (service : ServiceConfig) :
    List Action × Except String Unit :=
  match service.build with
  | none => ([], .error ("service " ++ service.name ++ " has no build context"))
  | some bctx =>
    match platArchFromService service with
    | .error e => ([], .error e)
    | .ok (plat, arch) =>
      ([Action.build service.name bctx plat arch], env.build bctx plat arch)

/-- `pkgService`: packages the build output of the service's context into
the local catalog under the service's image reference in "oci" format.
It is only reached after `buildService` established a build context. -/
def pkgService (env : Env) (service : ServiceConfig) :
    List Action × Except String Unit :=
  match platArchFromService service with
  | .error e => ([], .error e)
  | .ok (plat, arch) =>
    ([Action.package service.image "oci" plat arch (service.build.getD "")],
     env.package service.image "oci" plat arch (service.build.getD ""))

/-- `ensureServiceIsPackaged`: query the local catalog; on a hit return
immediately; on a miss query the remote catalog; on a remote hit pull; when
both miss, build and then package from the service's build context. -/
def ensureServiceIsPackaged (env : Env) (service : ServiceConfig) :
    List Action × Except String Unit :=
  match platArchFromService service with
  | .error e => ([], .error e)
  | .ok (plat, arch) =>
    let q := serviceCatalogQuery service plat arch
    let service := { service with image := normalizedImage service.image }
    match env.localCatalog q with
    | .error e => ([Action.queryLocal q], .error e)
    | .ok nLocal =>
      if nLocal ≠ 0 then ([Action.queryLocal q], .ok ())
      else
        match env.remoteCatalog q with
        | .error e => ([Action.queryLocal q, Action.queryRemote q], .error e)
        | .ok nRemote =>
          if nRemote ≠ 0 then
            ([Action.queryLocal q, Action.queryRemote q,
              Action.pull plat arch service.image],
             env.pull plat arch service.image)
          else
            match buildService env service with
            | (trB, .error e) =>
              ([Action.queryLocal q, Action.queryRemote q] ++ trB, .error e)
            | (trB, .ok _) =>
              let (trP, rP) := pkgService env service
              ([Action.queryLocal q, Action.queryRemote q] ++ trB ++ trP, rP)

/-- The `<network-name>:<assigned-ipv4>` attachment arguments built in
`runService` from the service's attachments and the project's networks. -/
def networkArgs (p : Project) (service : ServiceConfig) : List String :=
  service.networks.map (fun nm =>
    ((p.networks.lookup nm.1).getD ⟨"", "", []⟩).name ++ ":" ++ nm.2)

/-- `runService`: launches the instance detached under the service name,
with the image reference as target when present, otherwise the build
context. -/
def runService (env : Env) (p : Project) (service : ServiceConfig) :
    List Action × Except String Unit :=
  match platArchFromService service with
  | .error e => ([], .error e)
  | .ok (plat, arch) =>
    let nets := networkArgs p service
    let target := if service.image ≠ "" then service.image else service.build.getD ""
    ([Action.launch service.name plat arch nets target],
     env.runMachine service.name plat arch nets target)

/-- Whether a declared network carries an explicit subnet
(`network.Ipam.Config` non-nil and non-empty). -/
def hasSubnet (spec : NetworkSpec) : Bool := ¬ spec.ipamConfig.isEmpty

/-- The names of the project's declared networks that carry an explicit
subnet (the `subnetNetworks` slice of up.go lines 132-140). -/
def subnetNetworks (p : Project) : List String :=
  (p.networks.filter (fun e => hasSubnet e.2)).map (·.1)

/-- The names of the project's declared networks without an explicit
subnet (the `emptyNetworks` slice of up.go lines 132-140). -/
def emptyNetworks (p : Project) : List String :=
  (p.networks.filter (fun e => ¬ hasSubnet e.2)).map (·.1)

/-- The processing order of up.go line 142: subnet-bearing networks first,
then the subnet-less ones. -/
def orderedNetworks (p : Project) : List String :=
  subnetNetworks p ++ emptyNetworks p

/-- The network loop of up.go lines 144-184: skip networks already running
(matched by name), otherwise create with the declared driver (default
"bridge") and first configured subnet; a creation failure aborts the pass;
after creation re-fetch the network and, when it reports `up`, append its
identity to the owned-network set. -/
def networkLoop (env : Env) (p : Project) (existing : List NetworkItem) :
    List String → List String → List Action × Except String (List String)
  | [], owned => ([], .ok owned)
  | nm :: rest, owned =>
    let network := (p.networks.lookup nm).getD ⟨"", "", []⟩
    if existing.any (fun n => n.name = network.name) then
      networkLoop env p existing rest owned
    else
      let driver := if network.driver = "" then "bridge" else network.driver
      let subnet := match network.ipamConfig with
        | [] => ""
        | c :: _ => c.subnet
      match env.netCreate network.name driver subnet with
      | .error e => ([Action.createNetwork network.name driver subnet], .error e)
      | .ok _ =>
        let owned' := match env.netGet network.name with
          | .ok n => if n.state = .up then owned ++ [n.name] else owned
          | .error _ => owned
        let (tr, r) := networkLoop env p existing rest owned'
        (Action.createNetwork network.name driver subnet :: tr, r)

/-- The first listed machine whose name equals the service name (the inner
loop with `break` of up.go lines 204-219). -/
def findMachine (machines : List Machine) (name : String) : Option Machine :=
  machines.find? (fun m => name = m.name)

/-- Resolution and launch of one service that is not already running
(up.go lines 223-243): build when the service has no image, otherwise
resolve via `ensureServiceIsPackaged`; a resolution failure aborts the
pass; a launch failure is logged and processing continues; finally
re-fetch the machine and, when running, append its identity to the
owned-machine set. -/
def serviceResolveRun (env : Env) (p : Project) (service : ServiceConfig)
    (owned : List String) : List Action × Except String (List String) :=
  let (tr1, r1) :=
    if service.image = "" then buildService env service
    else ensureServiceIsPackaged env service
  match r1 with
  | .error e => (tr1, .error e)
  | .ok _ =>
    let (tr2, r2) := runService env p service
    let tr2' := match r2 with
      | .error _ => tr2 ++ [Action.logRunFailed service.name]
      | .ok _ => tr2
    let owned' := match env.machineGet service.name with
      | .ok m => if m.state = .running then owned ++ [m.name] else owned
      | .error _ => owned
    (tr1 ++ tr2', .ok owned')

/-- The service loop of up.go lines 202-244: a service whose machine is
already running is skipped entirely; a machine that exists but is not
running is removed first (a removal failure aborts the pass); otherwise
the service is resolved and launched via `serviceResolveRun`. -/
def serviceLoop (env : Env) (p : Project) (machines : List Machine) :
    List ServiceConfig → List String → List Action × Except String (List String)
  | [], owned => ([], .ok owned)
  | service :: rest, owned =>
    match findMachine machines service.name with
    | some m =>
      if m.state = .running then
        serviceLoop env p machines rest owned
      else
        match env.machineRemove service.name with
        | .error e => ([Action.removeMachine service.name], .error e)
        | .ok _ =>
          match serviceResolveRun env p service owned with
          | (tr, .error e) => (Action.removeMachine service.name :: tr, .error e)
          | (tr, .ok owned') =>
            let (tr', r') := serviceLoop env p machines rest owned'
            (Action.removeMachine service.name :: (tr ++ tr'), r')
    | none =>
      match serviceResolveRun env p service owned with
      | (tr, .error e) => (tr, .error e)
      | (tr, .ok owned') =>
        let (tr', r') := serviceLoop env p machines rest owned'
        (tr ++ tr', r')

/-- One reconciliation pass (`UpOptions.Run` from line 106): read the
pre-existing record, list networks, run the network loop over the ordered
network names, list machines, run the service loop, then persist the
merged record once at the end. -/
def upRun (env : Env) (p : Project) : List Action × Except String Unit :=
  let projectNetworks0 := (env.embedded.map (·.networks)).getD []
  match env.networksList with
  | .error e => ([], .error e)
  | .ok existing =>
    match networkLoop env p existing (orderedNetworks p) projectNetworks0 with
    | (trN, .error e) => (trN, .error e)
    | (trN, .ok projNets) =>
      let projectMachines0 := (env.embedded.map (·.machines)).getD []
      match env.machinesList with
      | .error e => (trN, .error e)
      | .ok machines =>
        match serviceLoop env p machines p.services projectMachines0 with
        | (trS, .error e) => (trN ++ trS, .error e)
        | (trS, .ok projMachines) =>
          let st : ComposeStatus := ⟨projMachines, projNets⟩
          let cf := p.composeFiles.headD ""
          (trN ++ trS ++ [Action.persist cf p.workingDir st],
           match env.persist cf p.workingDir st with
           | .error e => .error e
           | .ok _ => .ok ())

/-- Whether an action is a network creation. -/
def isCreateNetwork : Action → Bool
  | .createNetwork _ _ _ => true
  | _ => false

/-- Whether an action is an instance launch. -/
def isLaunch : Action → Bool
  | .launch _ _ _ _ _ => true
  | _ => false

/-- Whether an action is a persistence update. -/
def isPersist : Action → Bool
  | .persist _ _ _ => true
  | _ => false

end Kraftkit.Up

namespace Kraftkit.Events

/-! Concrete instances used to evaluate the watch-loop model. -/

/-- A running machine observed across consecutive ticks. -/
def machRun : Machine := ⟨"u1", "web", .running⟩

/-- A machine listed in the `unknown` lifecycle state. -/
def machUnknown : Machine := ⟨"u2", "db", .unknown⟩

/-- The machine captured by one observer goroutine. -/
def machObs : Machine := ⟨"u3", "cache", .running⟩

/-- A second captured machine for observer evaluation. -/
def machObs2 : Machine := ⟨"u4", "proxy", .running⟩

/-- A running machine used to evaluate the add phase. -/
def machRun2 : Machine := ⟨"u5", "api", .running⟩

end Kraftkit.Events

namespace Kraftkit.Up

/-! Concrete instances used to evaluate the reconciliation model. -/

/-- A service with no image that must be built from its context. -/
def svcX : ServiceConfig := ⟨"x", "", some "ctxX", "qemu/x86_64", []⟩

/-- A service resolved from an image reference. -/
def svcY : ServiceConfig := ⟨"y", "app:1", some "ctxY", "qemu/x86_64", []⟩

/-- A two-service project declaring `svcX` before `svcY`. -/
def projXY : Project := ⟨"proj", [svcX, svcY], [], ["compose.yaml"], "/w"⟩

/-- An environment in which every build fails and everything else
succeeds; the local catalog always hits. -/
def envBuildFail : Env where
  embedded := none
  networksList := .ok []
  machinesList := .ok []
  netCreate := fun _ _ _ => .ok ()
  netGet := fun _ => .error "no network"
  machineRemove := fun _ => .ok ()
  machineGet := fun _ => .error "not found"
  localCatalog := fun _ => .ok 1
  remoteCatalog := fun _ => .ok 0
  pull := fun _ _ _ => .ok ()
  build := fun _ _ _ => .error "boom"
  package := fun _ _ _ _ _ => .ok ()
  runMachine := fun _ _ _ _ _ => .ok ()
  persist := fun _ _ _ => .ok ()

/-- The machine reported running for `svcY` after its launch. -/
def machY : Machine := ⟨"uy", "y", .running⟩

/-- An environment in which `svcX` builds fine but fails to launch, while
`svcY` resolves locally, launches and comes up running. -/
def envLaunchFail : Env where
  embedded := none
  networksList := .ok []
  machinesList := .ok []
  netCreate := fun _ _ _ => .ok ()
  netGet := fun _ => .error "no network"
  machineRemove := fun _ => .ok ()
  machineGet := fun n => if n = "y" then .ok machY else .error "not found"
  localCatalog := fun _ => .ok 1
  remoteCatalog := fun _ => .ok 0
  pull := fun _ _ _ => .ok ()
  build := fun _ _ _ => .ok ()
  package := fun _ _ _ _ _ => .ok ()
  runMachine := fun n _ _ _ _ => if n = "x" then .error "launch failed" else .ok ()
  persist := fun _ _ _ => .ok ()

/-- A project with one subnet-bearing and one subnet-less network and one
already-running service. -/
def projOne : Project :=
  ⟨"one", [⟨"web", "app:2", none, "qemu/x86_64", []⟩],
    [("net0", ⟨"net0", "", [⟨"10.0.0.0/24"⟩]⟩)], ["compose.yaml"], "/w"⟩

/-- An environment in which `projOne`'s network already exists and its
service is already running. -/
def envAllRunning : Env where
  embedded := none
  networksList := .ok [⟨"net0", .up⟩]
  machinesList := .ok [⟨"uw", "web", .running⟩]
  netCreate := fun _ _ _ => .ok ()
  netGet := fun _ => .error "no network"
  machineRemove := fun _ => .ok ()
  machineGet := fun _ => .error "not found"
  localCatalog := fun _ => .ok 1
  remoteCatalog := fun _ => .ok 0
  pull := fun _ _ _ => .ok ()
  build := fun _ _ _ => .ok ()
  package := fun _ _ _ _ _ => .ok ()
  runMachine := fun _ _ _ _ _ => .ok ()
  persist := fun _ _ _ => .ok ()

/-- A project declaring a subnet-bearing network `a` and a subnet-less
network `b`. -/
def projSubnets : Project :=
  ⟨"nets", [],
    [("a", ⟨"a", "", [⟨"10.0.0.0/24"⟩]⟩), ("b", ⟨"b", "", []⟩)],
    ["compose.yaml"], "/w"⟩

/-- A tagged service used to evaluate the resolution tiers. -/
def svcW : ServiceConfig := ⟨"web", "org/app", some "ctxW", "qemu/x86_64", []⟩

/-- A pre-existing compose record owning one machine and one network. -/
def preC9 : ComposeStatus := ⟨["m0"], ["n0"]⟩

/-- A project with no declared networks or services, used to evaluate the
persistence merge against `preC9`. -/
def projEmpty : Project := ⟨"empty", [], [], ["compose.yaml"], "/w"⟩

/-- An environment whose pre-existing record is `preC9` and in which every
call succeeds. -/
def envC9 : Env where
  embedded := some preC9
  networksList := .ok []
  machinesList := .ok []
  netCreate := fun _ _ _ => .ok ()
  netGet := fun _ => .error "no network"
  machineRemove := fun _ => .ok ()
  machineGet := fun _ => .error "not found"
  localCatalog := fun _ => .ok 1
  remoteCatalog := fun _ => .ok 0
  pull := fun _ _ _ => .ok ()
  build := fun _ _ _ => .ok ()
  package := fun _ _ _ _ _ => .ok ()
  runMachine := fun _ _ _ _ _ => .ok ()
  persist := fun _ _ _ => .ok ()

end Kraftkit.Up

/-! # Theorems -/

namespace Cpio

theorem foldl_wrap_sum (p : List Nat) (s : Nat) (hs : s < 2 ^ 32) :
    p.foldl (fun a b => (a + b % 256) % 2 ^ 32) s
      = (s + (p.map (· % 256)).sum) % 2 ^ 32 := by
  induction p generalizing s with
  | nil => simpa using (Nat.mod_eq_of_lt hs).symm
  | cons b t ih =>
    have h' : (s + b % 256) % 2 ^ 32 < 2 ^ 32 := Nat.mod_lt _ (by norm_num)
    simp only [List.foldl_cons, List.map_cons, List.sum_cons]
    rw [ih _ h', Nat.mod_add_mod]
    ring_nf

theorem digestWrite_sum (d : Digest) (p : List Nat) (hd : d.sum < 2 ^ 32) :
    ((digestWrite d p).1).sum = (d.sum + (p.map (· % 256)).sum) % 2 ^ 32 := by
  simpa [digestWrite] using foldl_wrap_sum p d.sum hd

theorem digestWrite_sum_lt (d : Digest) (p : List Nat) (hd : d.sum < 2 ^ 32) :
    ((digestWrite d p).1).sum < 2 ^ 32 := by
  rw [digestWrite_sum d p hd]
  exact Nat.mod_lt _ (by norm_num)

theorem writeAll_sum (ps : List (List Nat)) (d : Digest) (hd : d.sum < 2 ^ 32) :
    (writeAll d ps).sum = (d.sum + (ps.flatten.map (· % 256)).sum) % 2 ^ 32 := by
  induction ps generalizing d with
  | nil => simpa [writeAll] using (Nat.mod_eq_of_lt hd).symm
  | cons p t ih =>
    have step : writeAll d (p :: t) = writeAll (digestWrite d p).1 t := rfl
    rw [step, ih _ (digestWrite_sum_lt d p hd), digestWrite_sum d p hd,
      Nat.mod_add_mod]
    simp [Nat.add_assoc]

/-- C10: for the SVR4 checksum digest, `Write` returns the length of its
input and a nil error; `Sum32` after writing a sequence of byte slices
from a fresh digest is the sum of all byte values written modulo `2 ^ 32`;
and writing `p` then `q` yields the same `Sum32` as writing `p ++ q`. -/
theorem c10_svr4_digest (d : Digest) (p q : List Nat) (ps : List (List Nat))
    (hbytes : ∀ b ∈ ps.flatten, b < 256) :
    ((digestWrite d p).2.1 = p.length ∧ (digestWrite d p).2.2 = none)
    ∧ Sum32 (writeAll NewHash ps) = ps.flatten.sum % 2 ^ 32
    ∧ Sum32 ((digestWrite (digestWrite d p).1 q).1)
        = Sum32 ((digestWrite d (p ++ q)).1) := by
  refine ⟨⟨rfl, rfl⟩, ?_, ?_⟩
  · have hmap : ps.flatten.map (· % 256) = ps.flatten :=
      (List.map_congr_left (fun b hb => Nat.mod_eq_of_lt (hbytes b hb))).trans
        (List.map_id _)
    have h0 : NewHash.sum < 2 ^ 32 := by norm_num [NewHash]
    show (writeAll NewHash ps).sum = ps.flatten.sum % 2 ^ 32
    rw [writeAll_sum ps NewHash h0, hmap]
    norm_num [NewHash]
  · simp [Sum32, digestWrite, List.foldl_append]

/-- Witness for C10 at concrete inputs. -/
theorem c10_svr4_digest_witness :
    (((digestWrite ⟨0⟩ [1, 2]).2.1 = [1, 2].length
        ∧ (digestWrite ⟨0⟩ [1, 2]).2.2 = none)
      ∧ Sum32 (writeAll NewHash [[10, 255], [0]]) = [[10, 255], [0]].flatten.sum % 2 ^ 32
      ∧ Sum32 ((digestWrite (digestWrite ⟨0⟩ [1, 2]).1 [3]).1)
          = Sum32 ((digestWrite ⟨0⟩ ([1, 2] ++ [3])).1)) :=
  c10_svr4_digest ⟨0⟩ [1, 2] [3] [[10, 255], [0]] (by decide)

end Cpio

namespace Kraftkit.Events

theorem wgAdd_mem_of_mem {reg : List Machine} {x m : Machine} (h : x ∈ reg) :
    x ∈ wgAdd reg m := by
  unfold wgAdd
  split
  · exact h
  · exact List.mem_append_left _ h

theorem wgAdd_uid_mem (reg : List Machine) (m : Machine) :
    ∃ x ∈ wgAdd reg m, x.uid = m.uid := by
  unfold wgAdd
  split
  · next h =>
    simp only [List.any_eq_true, decide_eq_true_eq] at h
    exact h
  · exact ⟨m, List.mem_append_right _ (List.mem_singleton.2 rfl), rfl⟩

theorem wgAdd_of_present {reg : List Machine} {m : Machine}
    (h : ∃ x ∈ reg, x.uid = m.uid) : wgAdd reg m = reg := by
  unfold wgAdd
  split
  · rfl
  · next hn =>
    exfalso
    apply hn
    simp only [List.any_eq_true, decide_eq_true_eq]
    exact h

theorem wgDone_sub {reg : List Machine} {m x : Machine} (h : x ∈ wgDone reg m) :
    x ∈ reg := List.mem_of_mem_filter h

theorem wgDone_uid {reg : List Machine} {m x : Machine} (h : x ∈ wgDone reg m) :
    ¬ x.uid = m.uid := by
  have := List.of_mem_filter h
  simpa using this

theorem tickAdd_mono (qt : Bool) (args : List String) (ms : List Machine) :
    ∀ (reg : List Machine) (u : String), (∃ x ∈ reg, x.uid = u) →
      ∃ x ∈ tickAdd qt args reg ms, x.uid = u := by
  induction ms with
  | nil => intro reg u h; exact h
  | cons m t ih =>
    intro reg u h
    show ∃ x ∈ tickAdd qt args
      (if matchesFilter args m then
        if skipAdd qt m.state then reg else wgAdd reg m
      else reg) t, x.uid = u
    apply ih
    obtain ⟨x, hx, hu⟩ := h
    split
    · split
      · exact ⟨x, hx, hu⟩
      · exact ⟨x, wgAdd_mem_of_mem hx, hu⟩
    · exact ⟨x, hx, hu⟩

theorem tickAdd_added (qt : Bool) (args : List String) (ms : List Machine)
    (m : Machine) (hm : m ∈ ms) (hf : matchesFilter args m = true)
    (hs : skipAdd qt m.state = false) :
    ∀ reg : List Machine, ∃ x ∈ tickAdd qt args reg ms, x.uid = m.uid := by
  induction ms with
  | nil => cases hm
  | cons y t ih =>
    intro reg
    rcases List.mem_cons.1 hm with h | h
    · subst h
      show ∃ x ∈ tickAdd qt args
        (if matchesFilter args m then
          if skipAdd qt m.state then reg else wgAdd reg m
        else reg) t, x.uid = m.uid
      rw [hf, hs]
      simp only [if_true, if_false]
      exact tickAdd_mono qt args t (wgAdd reg m) m.uid (wgAdd_uid_mem reg m)
    · show ∃ x ∈ tickAdd qt args
        (if matchesFilter args y then
          if skipAdd qt y.state then reg else wgAdd reg y
        else reg) t, x.uid = m.uid
      exact ih h _

theorem tickAdd_origin (qt : Bool) (args : List String) (ms : List Machine) :
    ∀ (reg : List Machine), ∀ x ∈ tickAdd qt args reg ms,
      x ∈ reg ∨ (x ∈ ms ∧ matchesFilter args x = true ∧ skipAdd qt x.state = false) := by
  induction ms with
  | nil => intro reg x hx; exact Or.inl hx
  | cons m t ih =>
    intro reg x hx
    have hx' : x ∈ tickAdd qt args
        (if matchesFilter args m then
          if skipAdd qt m.state then reg else wgAdd reg m
        else reg) t := hx
    rcases ih _ x hx' with h | ⟨h1, h2, h3⟩
    · split at h
      · next hf =>
        split at h
        · exact Or.inl h
        · next hs =>
          have hs' : skipAdd qt m.state = false := by
            revert hs; cases skipAdd qt m.state <;> simp
          unfold wgAdd at h
          split at h
          · exact Or.inl h
          · rcases List.mem_append.1 h with h' | h'
            · exact Or.inl h'
            · have hxm : x = m := List.mem_singleton.1 h'
              subst hxm
              exact Or.inr ⟨List.mem_cons_self _ _, hf, hs'⟩
      · exact Or.inl h
    · exact Or.inr ⟨List.mem_cons_of_mem _ h1, h2, h3⟩

theorem runTicks_const (m : Machine) (args : List String)
    (hf : matchesFilter args m = true) (hs : skipAdd false m.state = false) :
    ∀ (n : Nat) (sp : List String) (sl : Nat),
      runTicks false args (List.replicate n [m]) ⟨[m], sp, false, sl⟩
        = ⟨[m], sp ++ List.replicate n m.uid, false, sl + n⟩ := by
  have hstep : tickAdd false args [m] [m] = [m] := by
    show (if matchesFilter args m then
        if skipAdd false m.state then [m] else wgAdd [m] m
      else [m]) = [m]
    rw [hf, hs]
    simp [wgAdd]
  intro n
  induction n with
  | zero => intro sp sl; simp [runTicks]
  | succ k ih =>
    intro sp sl
    rw [List.replicate_succ]
    show runTicks false args ([m] :: List.replicate k [m]) ⟨[m], sp, false, sl⟩
      = ⟨[m], sp ++ List.replicate (k + 1) m.uid, false, sl + (k + 1)⟩
    unfold runTicks
    simp only [hstep]
    rw [if_neg (by simp)]
    rw [ih (sp ++ [m].map (·.uid)) (sl + 1)]
    simp [List.replicate_succ]
    omega

/-- C2 (amended): the control loop spawns one observer task per registry
member on every tick, not only for instances newly added in that tick; an
identity that stays under observation for `n` consecutive ticks therefore
has `n` observer tasks spawned for it, one per tick. -/
theorem c2_observer_per_tick (n : Nat) (m : Machine) (args : List String)
    (hf : matchesFilter args m = true) (hs : skipAdd false m.state = false) :
    (runTicks false args (List.replicate n [m]) initLoop).spawned.count m.uid = n := by
  cases n with
  | zero => simp [runTicks, initLoop]
  | succ k =>
    have hstep0 : tickAdd false args [] [m] = [m] := by
      show (if matchesFilter args m then
          if skipAdd false m.state then [] else wgAdd [] m
        else []) = [m]
      rw [hf, hs]
      simp [wgAdd]
    rw [List.replicate_succ]
    show (runTicks false args ([m] :: List.replicate k [m]) initLoop).spawned.count m.uid
      = k + 1
    unfold runTicks
    simp only [initLoop, hstep0]
    rw [if_neg (by simp)]
    rw [if_neg (by simp)]
    rw [runTicks_const m args hf hs k ([] ++ [m].map (·.uid)) (0 + 1)]
    simp [List.count_replicate_self, List.replicate_succ]

/-- C2 counterexample: the claim states that an observer is never spawned a
second time for an identity already under observation; but a running
machine present in the registry across two consecutive ticks receives two
spawned observers. -/
theorem c2_counterexample :
    ¬ ((runTicks false [] [[machRun], [machRun]] initLoop).spawned.count machRun.uid ≤ 1) := by
  decide

/-- Witness for the amended C2 at three consecutive ticks. -/
theorem c2_observer_per_tick_witness :
    (runTicks false [] (List.replicate 3 [machRun]) initLoop).spawned.count machRun.uid = 3 :=
  c2_observer_per_tick 3 machRun [] (by decide) (by decide)

/-- C3 (amended): on each watch tick, for every listed instance matching
the filter: a `starting` or `running` instance is always added to the
registry; an `unknown`, `exited` or `failed` instance is added only when
`quitWhenEmpty` is false (the code treats `unknown` like the terminal
states here, unlike the claim); and adding an already-registered identity
is a no-op. -/
theorem c3_tick_add_policy (qt : Bool) (args : List String)
    (reg ms : List Machine) (m : Machine)
    (hm : m ∈ ms) (hf : matchesFilter args m = true) :
    ((m.state = .starting ∨ m.state = .running ∨ qt = false) →
      ∃ x ∈ tickAdd qt args reg ms, x.uid = m.uid)
    ∧ (qt = true →
        (m.state = .unknown ∨ m.state = .exited ∨ m.state = .failed) →
        (∀ x ∈ reg, ¬ x.uid = m.uid) →
        (∀ x ∈ ms, x.uid = m.uid →
          (x.state = .unknown ∨ x.state = .exited ∨ x.state = .failed)) →
        ∀ x ∈ tickAdd qt args reg ms, ¬ x.uid = m.uid)
    ∧ (∀ (reg' : List Machine) (m' : Machine),
        (∃ x ∈ reg', x.uid = m'.uid) → wgAdd reg' m' = reg') := by
  refine ⟨?_, ?_, fun reg' m' h => wgAdd_of_present h⟩
  · intro hstate
    apply tickAdd_added qt args ms m hm hf
    rcases hstate with h | h | h
    · rw [h]; rfl
    · rw [h]; rfl
    · rcases m.state <;> simp [skipAdd, h]
  · intro hqt hterm hreg hall x hx huid
    rcases tickAdd_origin qt args ms reg x hx with h | ⟨h1, _, h3⟩
    · exact hreg x h huid
    · rcases hall x h1 huid with h | h | h <;>
        rw [h, hqt] at h3 <;> simp [skipAdd] at h3

/-- C3 counterexample: the claim states that an instance in the
non-terminal state `unknown` is added to the registry; with
`quitWhenEmpty` true, a matching machine in state `unknown` is not
added. -/
theorem c3_counterexample :
    ¬ ∃ x ∈ tickAdd true [] [] [machUnknown], x.uid = machUnknown.uid := by
  decide

/-- Witness for the amended C3 at a concrete running machine. -/
theorem c3_tick_add_policy_witness :
    (((machRun2.state = .starting ∨ machRun2.state = .running ∨ true = false) →
      ∃ x ∈ tickAdd true [] [] [machRun2], x.uid = machRun2.uid)
    ∧ (true = true →
        (machRun2.state = .unknown ∨ machRun2.state = .exited ∨ machRun2.state = .failed) →
        (∀ x ∈ ([] : List Machine), ¬ x.uid = machRun2.uid) →
        (∀ x ∈ [machRun2], x.uid = machRun2.uid →
          (x.state = .unknown ∨ x.state = .exited ∨ x.state = .failed)) →
        ∀ x ∈ tickAdd true [] [] [machRun2], ¬ x.uid = machRun2.uid)
    ∧ (∀ (reg' : List Machine) (m' : Machine),
        (∃ x ∈ reg', x.uid = m'.uid) → wgAdd reg' m' = reg')) :=
  c3_tick_add_policy true [] [] [machRun2] machRun2 (by decide) (by decide)

theorem observer_reg_sub (m : Machine) (msgs : List ObsMsg) :
    ∀ (reg : List Machine) (logs : Nat),
      ∀ x ∈ (observer m msgs reg logs).1, x ∈ reg := by
  induction msgs with
  | nil => intro reg logs x hx; simpa [observer] using hx
  | cons msg rest ih =>
    intro reg logs x hx
    cases msg with
    | ev e =>
      obtain ⟨u, nm, st⟩ := e
      cases st
      · exact ih reg logs x hx
      · exact ih reg logs x hx
      · exact ih reg logs x hx
      · exact wgDone_sub hx
      · exact wgDone_sub hx
    | err benign =>
      have hx' : x ∈ (observer m rest (wgDone reg m)
          (if benign then logs else logs + 1)).1 := hx
      exact wgDone_sub (ih _ _ x hx')
    | cancelled => exact wgDone_sub hx

/-- C4 (amended): when the observer receives an error from the event
stream it removes the captured instance from the registry, and the benign
accepted-non-event condition is not logged as an error while still causing
removal; but the observer task does not exit — it continues waiting for
further messages (the `errs` case has no `return`). -/
theorem c4_stream_error (m : Machine) (benign : Bool) (rest : List ObsMsg)
    (reg : List Machine) (logs : Nat) :
    observer m (ObsMsg.err benign :: rest) reg logs
      = observer m rest (wgDone reg m) (if benign then logs else logs + 1)
    ∧ (∀ x ∈ (observer m (ObsMsg.err benign :: rest) reg logs).1, ¬ x.uid = m.uid)
    ∧ (observer m [ObsMsg.err benign] reg logs).2.2 = false := by
  refine ⟨rfl, ?_, rfl⟩
  intro x hx
  have hx' : x ∈ (observer m rest (wgDone reg m)
      (if benign then logs else logs + 1)).1 := hx
  exact wgDone_uid (observer_reg_sub m rest _ _ x hx')

/-- C4 counterexample: the claim states that on a stream error the
observer task exits; after receiving a non-benign stream error the
observer has removed the instance but has not returned. -/
theorem c4_counterexample :
    ¬ ((observer machObs [ObsMsg.err false] [machObs] 0).2.2 = true) := by
  decide

/-- Witness for the amended C4 at a concrete observer. -/
theorem c4_stream_error_witness :
    (observer machObs2 (ObsMsg.err true :: []) [machObs2] 0
      = observer machObs2 [] (wgDone [machObs2] machObs2) (if true then 0 else 0 + 1)
    ∧ (∀ x ∈ (observer machObs2 (ObsMsg.err true :: []) [machObs2] 0).1,
        ¬ x.uid = machObs2.uid)
    ∧ (observer machObs2 [ObsMsg.err true] [machObs2] 0).2.2 = false) :=
  c4_stream_error machObs2 true [] [machObs2] 0

/-- C8: with `quitWhenEmpty` true, whenever the registry is empty after
the add phase of a tick (in particular the first, immediate tick with zero
matching instances), the loop signals overall cancellation and stops at
once, without executing the sleep for another poll interval; the remaining
ticks are never run and the call proceeds to drain the spawned
observers. -/
theorem c8_quit_when_empty (args : List String) (s : LoopState)
    (ms : List Machine) (rest : List (List Machine))
    (hc : s.cancelled = false) (he : tickAdd true args s.reg ms = []) :
    runTicks true args (ms :: rest) s = { s with reg := [], cancelled := true }
    ∧ (runTicks true args (ms :: rest) s).sleeps = s.sleeps := by
  have h1 : runTicks true args (ms :: rest) s
      = { s with reg := [], cancelled := true } := by
    unfold runTicks
    rw [if_neg (by simp [hc]), he]
    simp
  exact ⟨h1, by rw [h1]⟩

/-- Witness for C8: the first tick lists no machines at all. -/
theorem c8_quit_when_empty_witness :
    (runTicks true [] ([] :: [[machRun2]]) initLoop
      = { initLoop with reg := [], cancelled := true }
    ∧ (runTicks true [] ([] :: [[machRun2]]) initLoop).sleeps = initLoop.sleeps) :=
  c8_quit_when_empty [] initLoop [] [[machRun2]] (by decide) (by decide)

end Kraftkit.Events


namespace Kraftkit.Up

theorem nodupKeys_eq {l : List (String × NetworkSpec)}
    (h : (l.map Prod.fst).Nodup) {a : String} {b₁ b₂ : NetworkSpec}
    (h1 : (a, b₁) ∈ l) (h2 : (a, b₂) ∈ l) : b₁ = b₂ := by
  induction l with
  | nil => cases h1
  | cons e t ih =>
    obtain ⟨k, v⟩ := e
    rw [List.map_cons, List.nodup_cons] at h
    rcases List.mem_cons.1 h1 with he1 | he1 <;>
      rcases List.mem_cons.1 h2 with he2 | he2
    · rw [Prod.mk.injEq] at he1 he2
      rw [he1.2, he2.2]
    · exfalso
      apply h.1
      rw [Prod.mk.injEq] at he1
      rw [← he1.1]
      exact List.mem_map.2 ⟨(a, b₂), he2, rfl⟩
    · exfalso
      apply h.1
      rw [Prod.mk.injEq] at he2
      rw [← he2.1]
      exact List.mem_map.2 ⟨(a, b₁), he1, rfl⟩
    · exact ih h.2 he1 he2

theorem not_both_groups {p : Project}
    (hnd : (p.networks.map Prod.fst).Nodup) (a : String) :
    ¬ (a ∈ subnetNetworks p ∧ a ∈ emptyNetworks p) := by
  rintro ⟨h1, h2⟩
  obtain ⟨e1, he1, heq1⟩ := List.mem_map.1 h1
  obtain ⟨e2, he2, heq2⟩ := List.mem_map.1 h2
  rw [List.mem_filter] at he1 he2
  have hv : e1.2 = e2.2 := by
    apply nodupKeys_eq hnd (a := a)
    · rw [← heq1]
      exact he1.1
    · rw [← heq2]
      exact he2.1
  have hs1 : hasSubnet e1.2 = true := by simpa using he1.2
  have hs2 : ¬ hasSubnet e2.2 = true := by simpa using he2.2
  rw [hv] at hs1
  exact hs2 hs1

/-- C6: the processing order built from the project's declared networks
places every subnet-bearing network strictly before every subnet-less
network (the `subnetNetworks`-then-`emptyNetworks` concatenation of up.go
line 142 that drives the creation loop). -/
theorem c6_subnet_first (p : Project) (hnd : (p.networks.map Prod.fst).Nodup)
    (a b : String) (ha : a ∈ subnetNetworks p) (hb : b ∈ emptyNetworks p) :
    (orderedNetworks p).indexOf a < (orderedNetworks p).indexOf b := by
  have hnb : b ∉ subnetNetworks p := fun hmem =>
    not_both_groups hnd b ⟨hmem, hb⟩
  show (subnetNetworks p ++ emptyNetworks p).indexOf a
    < (subnetNetworks p ++ emptyNetworks p).indexOf b
  rw [List.indexOf_append_of_mem ha, List.indexOf_append_of_not_mem hnb]
  calc (subnetNetworks p).indexOf a < (subnetNetworks p).length :=
        List.indexOf_lt_length.2 ha
    _ ≤ (subnetNetworks p).length + (emptyNetworks p).indexOf b :=
        Nat.le_add_right _ _

/-- Witness for C6 on a project with networks `a` (subnet 10.0.0.0/24) and
`b` (no subnet). -/
theorem c6_subnet_first_witness :
    (orderedNetworks projSubnets).indexOf "a"
      < (orderedNetworks projSubnets).indexOf "b" :=
  c6_subnet_first projSubnets (by decide) "a" "b" (by decide) (by decide)

end Kraftkit.Up

namespace Kraftkit.Up

theorem buildService_eq (env : Env) (s : ServiceConfig) (bc plat arch : String)
    (hb : s.build = some bc) (hpa : platArchFromService s = .ok (plat, arch)) :
    buildService env s = ([Action.build s.name bc plat arch], env.build bc plat arch) := by
  unfold buildService
  rw [hb, hpa]

theorem pkgService_eq (env : Env) (s : ServiceConfig) (bc plat arch : String)
    (hb : s.build = some bc) (hpa : platArchFromService s = .ok (plat, arch)) :
    pkgService env s
      = ([Action.package s.image "oci" plat arch bc],
         env.package s.image "oci" plat arch bc) := by
  unfold pkgService
  rw [hpa, hb]
  simp

/-- C7: artifact resolution follows the three-tier policy in strict order,
short-circuiting on first success: the local catalog is queried with name,
platform, architecture and version (the image tag, defaulting to "latest"
when untagged); a local hit succeeds with no remote query, pull, build or
package; only on a local miss is the remote catalog queried with the same
filter and a remote hit pulled; only when both miss is the service built
and then packaged from its build context. -/
theorem c7_three_tier (env : Env) (service : ServiceConfig) (plat arch : String)
    (hpa : platArchFromService service = .ok (plat, arch)) :
    ((splitN2 service.image ':').length = 1 →
      (serviceCatalogQuery service plat arch).version = "latest")
    ∧ (∀ n, env.localCatalog (serviceCatalogQuery service plat arch) = .ok n → n ≠ 0 →
        ensureServiceIsPackaged env service
          = ([Action.queryLocal (serviceCatalogQuery service plat arch)], .ok ()))
    ∧ (env.localCatalog (serviceCatalogQuery service plat arch) = .ok 0 →
        ∀ m, env.remoteCatalog (serviceCatalogQuery service plat arch) = .ok m → m ≠ 0 →
        ensureServiceIsPackaged env service
          = ([Action.queryLocal (serviceCatalogQuery service plat arch),
              Action.queryRemote (serviceCatalogQuery service plat arch),
              Action.pull plat arch (normalizedImage service.image)],
             env.pull plat arch (normalizedImage service.image)))
    ∧ (env.localCatalog (serviceCatalogQuery service plat arch) = .ok 0 →
        env.remoteCatalog (serviceCatalogQuery service plat arch) = .ok 0 →
        ∀ bc, service.build = some bc →
          (Action.build service.name bc plat arch ∈ (ensureServiceIsPackaged env service).1)
          ∧ (env.build bc plat arch = .ok () →
              Action.package (normalizedImage service.image) "oci" plat arch bc
                ∈ (ensureServiceIsPackaged env service).1)) := by
  refine ⟨?_, ?_, ?_, ?_⟩
  · intro h1
    show imageVersion service.image = "latest"
    unfold imageVersion
    exact List.getD_eq_default _ _ (le_of_eq h1)
  · intro n hL hn
    simp only [ensureServiceIsPackaged, hpa, hL, hn]
    simp [hn]
  · intro hL0 m hR hm0
    simp only [ensureServiceIsPackaged, hpa, hL0, hR]
    simp [hm0]
  · intro hL0 hR0 bc hbc
    have hpa' : platArchFromService
        { service with image := normalizedImage service.image } = .ok (plat, arch) := hpa
    have hb' : ({ service with image := normalizedImage service.image } : ServiceConfig).build
        = some bc := hbc
    have hBS : buildService env { service with image := normalizedImage service.image }
        = ([Action.build service.name bc plat arch], env.build bc plat arch) :=
      buildService_eq env _ bc plat arch hb' hpa'
    have hPS : pkgService env { service with image := normalizedImage service.image }
        = ([Action.package (normalizedImage service.image) "oci" plat arch bc],
           env.package (normalizedImage service.image) "oci" plat arch bc) :=
      pkgService_eq env _ bc plat arch hb' hpa'
    simp only [ensureServiceIsPackaged, hpa, hL0, hR0]
    rcases hEB : env.build bc plat arch with e | u
    · constructor
      · simp [hBS, hEB]
      · intro hok
        simp at hok
    · constructor
      · simp [hBS, hEB, hPS]
      · intro _
        simp [hBS, hEB, hPS]

namespace Kraftkit.Up

theorem lookup_mem {l : List (String × NetworkSpec)} {a : String} {b : NetworkSpec}
    (h : (a, b) ∈ l) : ∃ b', l.lookup a = some b' ∧ (a, b') ∈ l := by
  induction l with
  | nil => cases h
  | cons e t ih =>
    obtain ⟨k, v⟩ := e
    by_cases hk : a = k
    · subst hk
      exact ⟨v, by simp [List.lookup_cons], List.mem_cons_self _ _⟩
    · rcases List.mem_cons.1 h with he | he
      · rw [Prod.mk.injEq] at he
        exact absurd he.1 hk
      · obtain ⟨b', hb', hm⟩ := ih he
        refine ⟨b', ?_, List.mem_cons_of_mem _ hm⟩
        rw [List.lookup_cons]
        have : (a == k) = false := beq_eq_false_iff_ne.2 hk
        rw [this]
        exact hb'

theorem mem_orderedNetworks {p : Project} {nm : String}
    (h : nm ∈ orderedNetworks p) : ∃ spec, (nm, spec) ∈ p.networks := by
  rcases List.mem_append.1 h with h | h <;>
  · obtain ⟨e, he, heq⟩ := List.mem_map.1 h
    rw [List.mem_filter] at he
    subst heq
    exact ⟨e.2, he.1⟩

theorem networkLoop_skip (env : Env) (p : Project) (ex : List NetworkItem)
    (names : List String) :
    ∀ (owned : List String),
      (∀ nm ∈ names, ∃ x ∈ ex,
          x.name = ((p.networks.lookup nm).getD ⟨"", "", []⟩).name) →
      networkLoop env p ex names owned = ([], .ok owned) := by
  induction names with
  | nil => intro owned _; rfl
  | cons nm rest ih =>
    intro owned h
    obtain ⟨x, hx, hxe⟩ := h nm (List.mem_cons_self _ _)
    have hany : (ex.any fun n =>
        n.name = ((p.networks.lookup nm).getD ⟨"", "", []⟩).name) = true := by
      rw [List.any_eq_true]
      exact ⟨x, hx, by simpa using hxe⟩
    simp only [networkLoop, hany, if_true]
    exact ih _ (fun nm' h' => h nm' (List.mem_cons_of_mem _ h'))

theorem serviceLoop_skip (env : Env) (p : Project) (machines : List Machine)
    (svcs : List ServiceConfig) :
    ∀ (owned : List String),
      (∀ s ∈ svcs, ∃ x, findMachine machines s.name = some x ∧ x.state = .running) →
      serviceLoop env p machines svcs owned = ([], .ok owned) := by
  induction svcs with
  | nil => intro owned _; rfl
  | cons s rest ih =>
    intro owned h
    obtain ⟨x, hfind, hrun⟩ := h s (List.mem_cons_self _ _)
    simp only [serviceLoop, hfind, hrun, if_true]
    exact ih _ (fun s' h' => h s' (List.mem_cons_of_mem _ h'))

/-- C5: reconciliation is idempotent — on a pass over a project all of
whose declared networks are already present among the running networks and
all of whose services already have a running machine, the trace contains
zero network-creation calls and zero instance-launch calls. -/
theorem c5_idempotent (env : Env) (p : Project)
    (nets : List NetworkItem) (ms : List Machine)
    (hn : env.networksList = .ok nets)
    (hm : env.machinesList = .ok ms)
    (hnets : ∀ e ∈ p.networks, ∃ x ∈ nets, x.name = (e : String × NetworkSpec).2.name)
    (hms : ∀ s ∈ p.services, ∃ x, findMachine ms s.name = some x ∧ x.state = .running) :
    (upRun env p).1.filter isCreateNetwork = []
    ∧ (upRun env p).1.filter isLaunch = [] := by
  have hNL : ∀ owned, networkLoop env p nets (orderedNetworks p) owned = ([], .ok owned) := by
    intro owned
    apply networkLoop_skip
    intro nm hnm
    obtain ⟨spec, hspec⟩ := mem_orderedNetworks hnm
    obtain ⟨spec', hl, hmem⟩ := lookup_mem hspec
    obtain ⟨x, hx, hxe⟩ := hnets (nm, spec') hmem
    refine ⟨x, hx, ?_⟩
    rw [hl]
    simpa using hxe
  have hSL : ∀ owned, serviceLoop env p ms p.services owned = ([], .ok owned) :=
    fun owned => serviceLoop_skip env p ms p.services owned hms
  simp only [upRun, hn, hm, hNL, hSL]
  constructor <;> simp [isCreateNetwork, isLaunch]

/-- Witness for C5: the second pass over `projOne` with its network
present and its service running performs no creations and no launches. -/
theorem c5_idempotent_witness :
    ((upRun envAllRunning projOne).1.filter isCreateNetwork = []
    ∧ (upRun envAllRunning projOne).1.filter isLaunch = []) :=
  c5_idempotent envAllRunning projOne [⟨"net0", .up⟩] [⟨"uw", "web", .running⟩]
    rfl rfl (by decide)
    (by
      intro s hs
      have hs' : s = ⟨"web", "app:2", none, "qemu/x86_64", []⟩ := by
        simpa [projOne] using hs
      subst hs'
      exact ⟨⟨"uw", "web", .running⟩, rfl, rfl⟩)

end Kraftkit.Up

namespace Kraftkit.Up

/-- Witness for C7 at the untagged service `svcW` with target
qemu/x86_64. -/
theorem c7_three_tier_witness :
    (((splitN2 svcW.image ':').length = 1 →
      (serviceCatalogQuery svcW "qemu" "x86_64").version = "latest")
    ∧ (∀ n, envBuildFail.localCatalog (serviceCatalogQuery svcW "qemu" "x86_64") = .ok n →
        n ≠ 0 →
        ensureServiceIsPackaged envBuildFail svcW
          = ([Action.queryLocal (serviceCatalogQuery svcW "qemu" "x86_64")], .ok ()))
    ∧ (envBuildFail.localCatalog (serviceCatalogQuery svcW "qemu" "x86_64") = .ok 0 →
        ∀ m, envBuildFail.remoteCatalog (serviceCatalogQuery svcW "qemu" "x86_64") = .ok m →
        m ≠ 0 →
        ensureServiceIsPackaged envBuildFail svcW
          = ([Action.queryLocal (serviceCatalogQuery svcW "qemu" "x86_64"),
              Action.queryRemote (serviceCatalogQuery svcW "qemu" "x86_64"),
              Action.pull "qemu" "x86_64" (normalizedImage svcW.image)],
             envBuildFail.pull "qemu" "x86_64" (normalizedImage svcW.image)))
    ∧ (envBuildFail.localCatalog (serviceCatalogQuery svcW "qemu" "x86_64") = .ok 0 →
        envBuildFail.remoteCatalog (serviceCatalogQuery svcW "qemu" "x86_64") = .ok 0 →
        ∀ bc, svcW.build = some bc →
          (Action.build svcW.name bc "qemu" "x86_64"
              ∈ (ensureServiceIsPackaged envBuildFail svcW).1)
          ∧ (envBuildFail.build bc "qemu" "x86_64" = .ok () →
              Action.package (normalizedImage svcW.image) "oci" "qemu" "x86_64" bc
                ∈ (ensureServiceIsPackaged envBuildFail svcW).1))) :=
  c7_three_tier envBuildFail svcW "qemu" "x86_64" (by rfl)

end Kraftkit.Up

namespace Kraftkit.Up

theorem buildService_no_persist (env : Env) (s : ServiceConfig) :
    ∀ a ∈ (buildService env s).1, isPersist a = false := by
  intro a ha
  unfold buildService at ha
  split at ha
  · cases ha
  · split at ha
    · cases ha
    · simp only [List.mem_singleton] at ha
      subst ha
      rfl

theorem pkgService_no_persist (env : Env) (s : ServiceConfig) :
    ∀ a ∈ (pkgService env s).1, isPersist a = false := by
  intro a ha
  unfold pkgService at ha
  split at ha
  · cases ha
  · simp only [List.mem_singleton] at ha
    subst ha
    rfl

theorem runService_no_persist (env : Env) (p : Project) (s : ServiceConfig) :
    ∀ a ∈ (runService env p s).1, isPersist a = false := by
  intro a ha
  unfold runService at ha
  split at ha
  · cases ha
  · simp only [List.mem_singleton] at ha
    subst ha
    rfl

theorem ensure_no_persist (env : Env) (s : ServiceConfig) :
    ∀ a ∈ (ensureServiceIsPackaged env s).1, isPersist a = false := by
  rcases hpa : platArchFromService s with e | pr
  · simp [ensureServiceIsPackaged, hpa]
  · obtain ⟨plat, arch⟩ := pr
    rcases hL : env.localCatalog (serviceCatalogQuery s plat arch) with e | n
    · intro a ha
      simp only [ensureServiceIsPackaged, hpa, hL] at ha
      simp only [List.mem_singleton] at ha
      subst ha
      rfl
    · by_cases hn : n = 0
      · subst hn
        rcases hR : env.remoteCatalog (serviceCatalogQuery s plat arch) with e | mR
        · intro a ha
          simp only [ensureServiceIsPackaged, hpa, hL, hR] at ha
          simp at ha
          rcases ha with rfl | rfl <;> rfl
        · by_cases hm : mR = 0
          · subst hm
            rcases hB : buildService env { s with image := normalizedImage s.image }
              with ⟨trB, rB⟩
            rcases hP : pkgService env { s with image := normalizedImage s.image }
              with ⟨trP, rP⟩
            rcases rB with e2 | u2
            · intro a ha
              simp only [ensureServiceIsPackaged, hpa, hL, hR, hB] at ha
              simp at ha
              rcases ha with rfl | rfl | h
              · rfl
              · rfl
              · exact buildService_no_persist env _ a (by rw [hB]; exact h)
            · intro a ha
              simp only [ensureServiceIsPackaged, hpa, hL, hR, hB, hP] at ha
              simp at ha
              rcases ha with rfl | rfl | h | h
              · rfl
              · rfl
              · exact buildService_no_persist env _ a (by rw [hB]; exact h)
              · exact pkgService_no_persist env _ a (by rw [hP]; exact h)
          · intro a ha
            simp only [ensureServiceIsPackaged, hpa, hL, hR] at ha
            simp [hm] at ha
            rcases ha with rfl | rfl | rfl <;> rfl
      · intro a ha
        simp only [ensureServiceIsPackaged, hpa, hL] at ha
        simp [hn] at ha
        subst ha
        rfl

theorem serviceResolveRun_facts (env : Env) (p : Project) (s : ServiceConfig)
    (owned : List String) :
    (∀ a ∈ (serviceResolveRun env p s owned).1, isPersist a = false)
    ∧ (∀ owned', (serviceResolveRun env p s owned).2 = .ok owned' →
        ∃ extra, owned' = owned ++ extra) := by
  rcases hr1 : (if s.image = "" then buildService env s
      else ensureServiceIsPackaged env s) with ⟨tr1, r1⟩
  have h1 : ∀ a ∈ tr1, isPersist a = false := by
    intro a ha
    by_cases himg : s.image = ""
    · rw [if_pos himg] at hr1
      exact buildService_no_persist env s a (by rw [hr1]; exact ha)
    · rw [if_neg himg] at hr1
      exact ensure_no_persist env s a (by rw [hr1]; exact ha)
  rcases r1 with e | u
  · have hE : serviceResolveRun env p s owned = (tr1, .error e) := by
      simp only [serviceResolveRun, hr1]
    rw [hE]
    constructor
    · exact h1
    · intro owned' h
      cases h
  · rcases hr2 : runService env p s with ⟨tr2, r2⟩
    have hE : serviceResolveRun env p s owned
        = (tr1 ++ (match r2 with
            | .error _ => tr2 ++ [Action.logRunFailed s.name]
            | .ok _ => tr2),
           .ok (match env.machineGet s.name with
            | .ok m => if m.state = .running then owned ++ [m.name] else owned
            | .error _ => owned)) := by
      simp only [serviceResolveRun, hr1, hr2]
      cases r2 <;> rfl
    rw [hE]
    constructor
    · intro a ha
      rcases List.mem_append.1 ha with h | h
      · exact h1 a h
      · rcases r2 with e2 | u2
        · rcases List.mem_append.1 h with h' | h'
          · exact runService_no_persist env p s a (by rw [hr2]; exact h')
          · simp only [List.mem_singleton] at h'
            subst h'
            rfl
        · exact runService_no_persist env p s a (by rw [hr2]; exact h)
    · intro owned' h
      have h' := Except.ok.inj h
      rcases hg : env.machineGet s.name with e3 | m
      · simp only [hg] at h'
        exact ⟨[], by rw [← h']; simp⟩
      · simp only [hg] at h'
        by_cases hst : m.state = .running
        · rw [if_pos hst] at h'
          exact ⟨[m.name], h'.symm⟩
        · rw [if_neg hst] at h'
          exact ⟨[], by rw [← h']; simp⟩

end Kraftkit.Up

namespace Kraftkit.Up

theorem networkLoop_facts (env : Env) (p : Project) (ex : List NetworkItem)
    (names : List String) (owned : List String) :
    (∀ a ∈ (networkLoop env p ex names owned).1, isPersist a = false)
    ∧ (∀ owned', (networkLoop env p ex names owned).2 = .ok owned' →
        ∃ extra, owned' = owned ++ extra) := by
  induction names, owned using networkLoop.induct env p ex with
  | case1 owned =>
    constructor
    · intro a ha
      cases ha
    · intro owned' h
      obtain rfl : owned = owned' := by simpa [networkLoop] using h
      exact ⟨[], by simp⟩
  | case2 nm rest owned network hany ih =>
    have he : networkLoop env p ex (nm :: rest) owned
        = networkLoop env p ex rest owned := by
      simp only [networkLoop]
      rw [if_pos hany]
    rw [he]
    exact ih
  | case3 nm rest owned network hany driver subnet e hc =>
    have he : networkLoop env p ex (nm :: rest) owned
        = ([Action.createNetwork network.name driver subnet], .error e) := by
      simp only [networkLoop]
      rw [if_neg hany]
      simp only [hc]
    rw [he]
    constructor
    · intro a ha
      simp only [List.mem_singleton] at ha
      subst ha
      rfl
    · intro owned' h
      cases h
  | case4 nm rest owned network hany driver subnet u hc owned' tr r hrec ih =>
    have he : networkLoop env p ex (nm :: rest) owned
        = (Action.createNetwork network.name driver subnet :: tr, r) := by
      simp only [networkLoop]
      rw [if_neg hany]
      simp only [hc, hrec]
    rw [he]
    constructor
    · intro a ha
      rcases List.mem_cons.1 ha with rfl | h
      · rfl
      · exact ih.1 a (by rw [hrec]; exact h)
    · intro ow h
      obtain ⟨extra, hex⟩ := ih.2 ow (by rw [hrec]; exact h)
      have hex' : ow = (match env.netGet network.name with
          | Except.ok n => if n.state = NetworkState.up then owned ++ [n.name] else owned
          | Except.error _ => owned) ++ extra := hex
      rcases hg : env.netGet network.name with e2 | n
      · simp only [hg] at hex'
        exact ⟨extra, hex'⟩
      · simp only [hg] at hex'
        by_cases hst : n.state = .up
        · rw [if_pos hst] at hex'
          exact ⟨[n.name] ++ extra, by rw [hex', List.append_assoc]⟩
        · rw [if_neg hst] at hex'
          exact ⟨extra, hex'⟩

theorem serviceLoop_facts (env : Env) (p : Project) (machines : List Machine)
    (svcs : List ServiceConfig) (owned : List String) :
    (∀ a ∈ (serviceLoop env p machines svcs owned).1, isPersist a = false)
    ∧ (∀ owned', (serviceLoop env p machines svcs owned).2 = .ok owned' →
        ∃ extra, owned' = owned ++ extra) := by
  induction svcs, owned using serviceLoop.induct env p machines with
  | case1 owned =>
    constructor
    · intro a ha
      cases ha
    · intro owned' h
      obtain rfl : owned = owned' := by simpa [serviceLoop] using h
      exact ⟨[], by simp⟩
  | case2 service rest owned m hfind hrun ih =>
    have he : serviceLoop env p machines (service :: rest) owned
        = serviceLoop env p machines rest owned := by
      simp only [serviceLoop, hfind]
      rw [if_pos hrun]
    rw [he]
    exact ih
  | case3 service rest owned m hfind hrun e hrm =>
    have he : serviceLoop env p machines (service :: rest) owned
        = ([Action.removeMachine service.name], .error e) := by
      simp only [serviceLoop, hfind]
      rw [if_neg hrun]
      simp only [hrm]
    rw [he]
    constructor
    · intro a ha
      simp only [List.mem_singleton] at ha
      subst ha
      rfl
    · intro owned' h
      cases h
  | case4 service rest owned m hfind hrun u hrm tr e hres =>
    have he : serviceLoop env p machines (service :: rest) owned
        = (Action.removeMachine service.name :: tr, .error e) := by
      simp only [serviceLoop, hfind]
      rw [if_neg hrun]
      simp only [hrm, hres]
    rw [he]
    constructor
    · intro a ha
      rcases List.mem_cons.1 ha with rfl | h
      · rfl
      · exact (serviceResolveRun_facts env p service owned).1 a (by rw [hres]; exact h)
    · intro owned' h
      cases h
  | case5 service rest owned m hfind hrun u hrm tr owned' hres tr' r' hrec ih =>
    have he : serviceLoop env p machines (service :: rest) owned
        = (Action.removeMachine service.name :: (tr ++ tr'), r') := by
      simp only [serviceLoop, hfind]
      rw [if_neg hrun]
      simp only [hrm, hres, hrec]
    rw [he]
    constructor
    · intro a ha
      rcases List.mem_cons.1 ha with rfl | h
      · rfl
      · rcases List.mem_append.1 h with h' | h'
        · exact (serviceResolveRun_facts env p service owned).1 a (by rw [hres]; exact h')
        · exact ih.1 a (by rw [hrec]; exact h')
    · intro ow hw
      obtain ⟨extra1, hex1⟩ :=
        (serviceResolveRun_facts env p service owned).2 owned' (by rw [hres])
      obtain ⟨extra2, hex2⟩ := ih.2 ow (by rw [hrec]; exact hw)
      exact ⟨extra1 ++ extra2, by rw [hex2, hex1, List.append_assoc]⟩
  | case6 service rest owned hfind tr e hres =>
    have he : serviceLoop env p machines (service :: rest) owned = (tr, .error e) := by
      simp only [serviceLoop, hfind]
      simp only [hres]
    rw [he]
    constructor
    · intro a ha
      exact (serviceResolveRun_facts env p service owned).1 a (by rw [hres]; exact ha)
    · intro owned' h
      cases h
  | case7 service rest owned hfind tr owned' hres tr' r' hrec ih =>
    have he : serviceLoop env p machines (service :: rest) owned = (tr ++ tr', r') := by
      simp only [serviceLoop, hfind]
      simp only [hres, hrec]
    rw [he]
    constructor
    · intro a ha
      rcases List.mem_append.1 ha with h' | h'
      · exact (serviceResolveRun_facts env p service owned).1 a (by rw [hres]; exact h')
      · exact ih.1 a (by rw [hrec]; exact h')
    · intro ow hw
      obtain ⟨extra1, hex1⟩ :=
        (serviceResolveRun_facts env p service owned).2 owned' (by rw [hres])
      obtain ⟨extra2, hex2⟩ := ih.2 ow (by rw [hrec]; exact hw)
      exact ⟨extra1 ++ extra2, by rw [hex2, hex1, List.append_assoc]⟩

end Kraftkit.Up

namespace Kraftkit.Up

/-- C9: in a completed reconciliation pass the composite record is
persisted exactly once, as the last externally visible call after all
network and service processing, and the persisted record is a superset
merge: the pre-existing record's network and machine identities are still
present, with newly owned identities appended. -/
theorem c9_persist_once (env : Env) (p : Project) (pre : ComposeStatus)
    (hemb : env.embedded = some pre) (hok : (upRun env p).2 = .ok ()) :
    ∃ st : ComposeStatus,
      (upRun env p).1.getLast?
          = some (Action.persist (p.composeFiles.headD "") p.workingDir st)
      ∧ (upRun env p).1.filter isPersist
          = [Action.persist (p.composeFiles.headD "") p.workingDir st]
      ∧ (∃ extraN, st.networks = pre.networks ++ extraN)
      ∧ (∃ extraM, st.machines = pre.machines ++ extraM) := by
  have hinitN : (env.embedded.map (·.networks)).getD [] = pre.networks := by
    rw [hemb]
    rfl
  have hinitM : (env.embedded.map (·.machines)).getD [] = pre.machines := by
    rw [hemb]
    rfl
  rcases hnl : env.networksList with e | ex
  · exfalso
    simp [upRun, hnl] at hok
  rcases hNL : networkLoop env p ex (orderedNetworks p) pre.networks with ⟨trN, rN⟩
  rcases rN with e | projNets
  · exfalso
    simp only [upRun, hnl, hinitN, hNL] at hok
    simp at hok
  rcases hml : env.machinesList with e | ms
  · exfalso
    simp only [upRun, hnl, hinitN, hNL, hml] at hok
    simp at hok
  rcases hSL : serviceLoop env p ms p.services pre.machines with ⟨trS, rS⟩
  rcases rS with e | projMachines
  · exfalso
    simp only [upRun, hnl, hinitN, hNL, hml, hinitM, hSL] at hok
    simp at hok
  have hU : upRun env p
      = (trN ++ trS ++ [Action.persist (p.composeFiles.headD "") p.workingDir
            ⟨projMachines, projNets⟩],
         match env.persist (p.composeFiles.headD "") p.workingDir
            ⟨projMachines, projNets⟩ with
         | .error e => .error e
         | .ok _ => .ok ()) := by
    simp only [upRun, hnl, hinitN, hNL, hml, hinitM, hSL]
  refine ⟨⟨projMachines, projNets⟩, ?_, ?_, ?_, ?_⟩
  · rw [hU]
    exact List.getLast?_concat _
  · rw [hU]
    rw [List.filter_append, List.filter_append]
    have h1 : trN.filter isPersist = [] := by
      rw [List.filter_eq_nil_iff]
      intro a ha
      have := (networkLoop_facts env p ex (orderedNetworks p) pre.networks).1 a
        (by rw [hNL]; exact ha)
      simp [this]
    have h2 : trS.filter isPersist = [] := by
      rw [List.filter_eq_nil_iff]
      intro a ha
      have := (serviceLoop_facts env p ms p.services pre.machines).1 a
        (by rw [hSL]; exact ha)
      simp [this]
    rw [h1, h2]
    rfl
  · exact (networkLoop_facts env p ex (orderedNetworks p) pre.networks).2 projNets
      (by rw [hNL])
  · exact (serviceLoop_facts env p ms p.services pre.machines).2 projMachines
      (by rw [hSL])

/-- Witness for C9: a pass over the empty project with a pre-existing
record owning one machine and one network. -/
theorem c9_persist_once_witness :
    (∃ st : ComposeStatus,
      (upRun envC9 projEmpty).1.getLast?
          = some (Action.persist (projEmpty.composeFiles.headD "")
              projEmpty.workingDir st)
      ∧ (upRun envC9 projEmpty).1.filter isPersist
          = [Action.persist (projEmpty.composeFiles.headD "")
              projEmpty.workingDir st]
      ∧ (∃ extraN, st.networks = preC9.networks ++ extraN)
      ∧ (∃ extraM, st.machines = preC9.machines ++ extraM)) :=
  c9_persist_once envC9 projEmpty preC9 rfl rfl

end Kraftkit.Up

namespace Kraftkit.Up

/-- C1 counterexample: the claim states that a failure while resolving or
building one service does not abort the remaining services; but in the
two-service project `projXY`, where the first service's build fails, the
pass returns that error immediately and the later service is never
launched (no launch action appears in the trace). -/
theorem c1_counterexample :
    (upRun envBuildFail projXY).1.filter isLaunch = []
    ∧ (upRun envBuildFail projXY).2 = Except.error "boom" :=
  ⟨by decide, rfl⟩

/-- C1 (amended): a failure while launching one service does not abort the
remaining services — in a two-service project where `X` resolves but fails
to launch, the failure is logged, the later service `Y` is still resolved
and launched, and the persisted record reports `Y`'s machine running; a
failure while resolving or building a service, by contrast, aborts the
pass (see the counterexample). -/
theorem c1_launch_isolation (env : Env) (p : Project) (X Y : ServiceConfig)
    (px ax py ay bcX : String) (mY : Machine)
    (hsvc : p.services = [X, Y])
    (hnets : p.networks = [])
    (hXnets : X.networks = [])
    (hYnets : Y.networks = [])
    (hemb : env.embedded = none)
    (hnl : env.networksList = .ok [])
    (hml : env.machinesList = .ok [])
    (hpaX : platArchFromService X = .ok (px, ax))
    (hXimg : X.image = "")
    (hXbc : X.build = some bcX)
    (hbuildX : env.build bcX px ax = .ok ())
    (hrunX : env.runMachine X.name px ax [] bcX = .error "launch failed")
    (hgetX : env.machineGet X.name = .error "not found")
    (hpaY : platArchFromService Y = .ok (py, ay))
    (hYimg : ¬ Y.image = "")
    (hlocY : env.localCatalog (serviceCatalogQuery Y py ay) = .ok 1)
    (hrunY : env.runMachine Y.name py ay [] Y.image = .ok ())
    (hgetY : env.machineGet Y.name = .ok mY)
    (hmY : mY.state = .running) :
    Action.logRunFailed X.name ∈ (upRun env p).1
    ∧ Action.launch Y.name py ay [] Y.image ∈ (upRun env p).1
    ∧ ∃ st, Action.persist (p.composeFiles.headD "") p.workingDir st ∈ (upRun env p).1
        ∧ mY.name ∈ st.machines := by
  have hON : orderedNetworks p = [] := by
    simp [orderedNetworks, subnetNetworks, emptyNetworks, hnets]
  have hNL : networkLoop env p [] (orderedNetworks p) [] = ([], .ok []) := by
    rw [hON]
    rfl
  have hBX : buildService env X = ([Action.build X.name bcX px ax], .ok ()) := by
    rw [buildService_eq env X bcX px ax hXbc hpaX, hbuildX]
  have hRX : runService env p X
      = ([Action.launch X.name px ax [] bcX], .error "launch failed") := by
    unfold runService
    rw [hpaX]
    simp [networkArgs, hXnets, hXimg, hXbc, hrunX]
  have hresX : serviceResolveRun env p X []
      = ([Action.build X.name bcX px ax, Action.launch X.name px ax [] bcX,
          Action.logRunFailed X.name], .ok []) := by
    simp [serviceResolveRun, hXimg, hBX, hRX, hgetX]
  have hEY : ensureServiceIsPackaged env Y
      = ([Action.queryLocal (serviceCatalogQuery Y py ay)], .ok ()) := by
    simp only [ensureServiceIsPackaged, hpaY, hlocY]
    simp
  have hRY : runService env p Y
      = ([Action.launch Y.name py ay [] Y.image], .ok ()) := by
    unfold runService
    rw [hpaY]
    simp [networkArgs, hYnets, hYimg, hrunY]
  have hresY : serviceResolveRun env p Y []
      = ([Action.queryLocal (serviceCatalogQuery Y py ay),
          Action.launch Y.name py ay [] Y.image], .ok [mY.name]) := by
    simp [serviceResolveRun, hYimg, hEY, hRY, hgetY, hmY]
  have hSL : serviceLoop env p [] p.services []
      = ([Action.build X.name bcX px ax, Action.launch X.name px ax [] bcX,
          Action.logRunFailed X.name, Action.queryLocal (serviceCatalogQuery Y py ay),
          Action.launch Y.name py ay [] Y.image], .ok [mY.name]) := by
    rw [hsvc]
    simp only [serviceLoop, findMachine, List.find?, hresX, hresY]
    rfl
  have hU : (upRun env p).1
      = [Action.build X.name bcX px ax, Action.launch X.name px ax [] bcX,
         Action.logRunFailed X.name, Action.queryLocal (serviceCatalogQuery Y py ay),
         Action.launch Y.name py ay [] Y.image,
         Action.persist (p.composeFiles.headD "") p.workingDir ⟨[mY.name], []⟩] := by
    simp only [upRun, hnl, hml, hemb, Option.map_none', Option.getD_none, hNL, hSL]
    rfl
  rw [hU]
  refine ⟨by simp, by simp, ⟨[mY.name], []⟩, by simp, by simp⟩

/-- Witness for the amended C1 on concrete services: `svcX` builds but
fails to launch, `svcY` is still resolved locally, launched and reported
running. -/
theorem c1_launch_isolation_witness :
    (Action.logRunFailed svcX.name ∈ (upRun envLaunchFail projXY).1
    ∧ Action.launch svcY.name "qemu" "x86_64" [] svcY.image ∈ (upRun envLaunchFail projXY).1
    ∧ ∃ st, Action.persist (projXY.composeFiles.headD "") projXY.workingDir st
          ∈ (upRun envLaunchFail projXY).1
        ∧ machY.name ∈ st.machines) :=
  c1_launch_isolation envLaunchFail projXY svcX svcY "qemu" "x86_64" "qemu" "x86_64"
    "ctxX" machY rfl rfl rfl rfl rfl rfl rfl (by rfl) rfl rfl rfl (by rfl) (by rfl)
    (by rfl) (by decide) rfl (by rfl) (by rfl) rfl

end Kraftkit.Up
